import Mathlib

/-!
Shallow embedding of the rest-layer-pgsql storage handler (Go) in Lean 4.

Go strings are modelled as Lean `String` (character lists; the generated SQL
is ASCII so byte indexing and character indexing coincide).  A Go slice
expression `s[:n]` panics when `n` is negative or exceeds `len(s)`; it is
modelled by `goSlice`, which returns `none` in exactly those cases.  Fallible
Go functions returning `(string, error)` are modelled as `Except Err String`;
a Go runtime panic is modelled by the dedicated error value `Err.slicePanic`.
Go `map` iteration is modelled by association lists (one fixed iteration
order); `time.Now()` is passed in as an explicit `now : String` parameter
holding its RFC3339 rendering.
-/

namespace PgSql

/-- Runtime value attached to a query comparison or an item payload field
(Go `interface{}` / `query.Value`).  Constructors mirror the cases of the
type switch in `valueToString`; `vFloat`, `vTime` and `vOther` carry the
rendering that Go `fmt.Sprintf("%v", i)` would produce for them, since that
formatting is opaque to the translation logic. -/
inductive Value where
  | vInt (n : Int)
  | vFloat (render : String)
  | vBool (b : Bool)
  | vStr (s : String)
  | vTime (render : String)
  | vOther (render : String)
deriving DecidableEq

/-- Error vocabulary of the handler: the `resource` package errors, the raw
`database/sql` no-rows scan error, a generic database error carrying its
message, and a marker for a Go runtime panic caused by an out-of-range
string slice. -/
inductive Err where
  | errNoRows
  | errConflict
  | errNotFound
  | errNotImplemented
  | slicePanic
  | dbError (msg : String)
deriving DecidableEq

/-- Go `fmt.Sprintf("%v", i)` for the supported scalar types (unquoted). -/
def goFormatV : Value → String
  | .vInt n => toString n
  | .vFloat r => r
  | .vBool b => cond b "true" "false"
  | .vStr s => s
  | .vTime r => r
  | .vOther r => r

/-- The string produced by `valueToString` for each runtime type: numeric and
boolean values unquoted, strings and timestamps single-quoted; the `default`
case also quotes (its `return "", resource.ErrNotImplemented` is commented
out in the source). -/
def valueRender : Value → String
  | .vInt n => toString n
  | .vFloat r => r
  | .vBool b => cond b "true" "false"
  | .vStr s => "'" ++ s ++ "'"
  | .vTime r => "'" ++ r ++ "'"
  | .vOther r => "'" ++ r ++ "'"

/-- Embeds `valueToString` (query.go).  Every branch of the type switch,
including `default`, returns a string and a nil error, so the function is
total; the `Except` codomain mirrors the Go signature `(string, error)`. -/
def valueToString (v : Value) : Except Err String :=
  .ok (valueRender v)

/-- Go slice expression `s[:n]` (with `n : Int`, as Go `len` arithmetic is on
`int`): the prefix of length `n`, or `none` (a runtime panic) when `n` is
negative or exceeds `len(s)`. -/
def goSlice (s : String) (n : Int) : Option String :=
  if 0 ≤ n ∧ n ≤ (s.length : Int) then some ⟨s.data.take n.toNat⟩ else none

/-- The loop of `valuesToString`: `str += fmt.Sprintf("%s,", s)` for each
value.  Written as a right fold; it produces the same string as the Go
left-to-right accumulation by associativity of `++`. -/
def valuesLoop : List Value → Except Err String
  | [] => .ok ""
  | v :: rest =>
    match valueToString v with
    | .error e => .error e
    | .ok s =>
      match valuesLoop rest with
      | .error e => .error e
      | .ok srest => .ok (s ++ "," ++ srest)

/-- Embeds `valuesToString` (query.go): comma-join the encoded values, then
trim the trailing comma with `str[:len(str)-1]` — which panics when the list
is empty. -/
def valuesToString (vs : List Value) : Except Err String :=
  match valuesLoop vs with
  | .error e => .error e
  | .ok str =>
    match goSlice str ((str.length : Int) - 1) with
    | some s => .ok s
    | none => .error .slicePanic

/-- Predicate expression tree (the `query.Expression` cases handled by
`translatePredicate`'s type switch). -/
inductive Expr where
  | and (children : List Expr)
  | or (children : List Expr)
  | inList (field : String) (values : List Value)
  | notIn (field : String) (values : List Value)
  | equal (field : String) (value : Value)
  | notEqual (field : String) (value : Value)
  | greaterThan (field : String) (value : Value)
  | greaterOrEqual (field : String) (value : Value)
  | lowerThan (field : String) (value : Value)
  | lowerOrEqual (field : String) (value : Value)

/-- Is the comparison value a Go `string`?  (The `case string:` arm of the
inner type switches for Equal/NotEqual.) -/
def isStringVal : Value → Bool
  | .vStr _ => true
  | _ => false

/-- strings.Replace(v, "*", "%", -1): single-character pattern, hence a
character map. -/
def replaceStar (s : String) : String :=
  ⟨s.data.map (fun c => if c = '*' then '%' else c)⟩

/-- strings.Replace(v, "_", "\\_", -1): single-character pattern, each
underscore expands to backslash-underscore. -/
def replaceUnderscore (s : String) : String :=
  ⟨s.data.flatMap (fun c => if c = '_' then ['\\', '_'] else [c])⟩

/-- Decidable equality for `Except`, so that results of the translator can be
checked on concrete inputs by `decide`. -/
instance exceptDecEq {ε α : Type} [DecidableEq ε] [DecidableEq α] :
    DecidableEq (Except ε α) := fun a b =>
  match a, b with
  | .ok x, .ok y =>
    if h : x = y then .isTrue (congrArg Except.ok h)
    else .isFalse (fun hc => h (Except.ok.inj hc))
  | .error x, .error y =>
    if h : x = y then .isTrue (congrArg Except.error h)
    else .isFalse (fun hc => h (Except.error.inj hc))
  | .ok _, .error _ => .isFalse (fun hc => Except.noConfusion hc)
  | .error _, .ok _ => .isFalse (fun hc => Except.noConfusion hc)

mutual
/-- One arm of the `switch exp.(type)` in `translatePredicate` (query.go).
The `And` and `Or` cases join the child translations and trim the trailing
separator with `s[:len(s)-5]` / `s[:len(s)-4]`, which panics when the group
is empty.  In the source each child is translated by a recursive
`translatePredicate(query.Predicate{subExp})` call on a singleton predicate;
here the loops call `translateOne` directly (required for structural
recursion), and `translatePredicate_singleton` below proves the two agree.
For `In`/`NotIn` a non-nil `valuesToString` error is reported as
`ErrNotImplemented`, while a panic inside it propagates. -/
def translateOne : Expr → Except Err String
  | .and ts =>
    match andLoop ts with
    | .error e => .error e
    | .ok s =>
      match goSlice s ((s.length : Int) - 5) with
      | some s5 => .ok ("(" ++ s5 ++ ")")
      | none => .error .slicePanic
  | .or ts =>
    match orLoop ts with
    | .error e => .error e
    | .ok s =>
      match goSlice s ((s.length : Int) - 4) with
      | some s4 => .ok ("(" ++ s4 ++ ")")
      | none => .error .slicePanic
  | .inList f vs =>
    match valuesToString vs with
    | .error .slicePanic => .error .slicePanic
    | .error _ => .error .errNotImplemented
    | .ok v => .ok (f ++ " IN (" ++ v ++ ")")
  | .notIn f vs =>
    match valuesToString vs with
    | .error .slicePanic => .error .slicePanic
    | .error _ => .error .errNotImplemented
    | .ok v => .ok (f ++ " NOT IN (" ++ v ++ ")")
  | .equal f v0 =>
    match valueToString v0 with
    | .error _ => .error .errNotImplemented
    | .ok v =>
      if isStringVal v0 then
        .ok (f ++ " LIKE " ++ replaceUnderscore (replaceStar v) ++ " ESCAPE '\\'")
      else
        .ok (f ++ " IS " ++ v)
  | .notEqual f v0 =>
    match valueToString v0 with
    | .error _ => .error .errNotImplemented
    | .ok v =>
      if isStringVal v0 then
        .ok (f ++ " NOT LIKE " ++ replaceUnderscore (replaceStar v) ++ " ESCAPE '\\'")
      else
        .ok (f ++ " IS NOT " ++ v)
  | .greaterThan f v0 =>
    match valueToString v0 with
    | .error _ => .error .errNotImplemented
    | .ok v => .ok (f ++ " > " ++ v)
  | .greaterOrEqual f v0 =>
    match valueToString v0 with
    | .error _ => .error .errNotImplemented
    | .ok v => .ok (f ++ " >= " ++ v)
  | .lowerThan f v0 =>
    match valueToString v0 with
    | .error _ => .error .errNotImplemented
    | .ok v => .ok (f ++ " < " ++ v)
  | .lowerOrEqual f v0 =>
    match valueToString v0 with
    | .error _ => .error .errNotImplemented
    | .ok v => .ok (f ++ " <= " ++ v)

/-- The `case query.And` inner loop: `s += sb + " AND "` for each child,
where `sb` is the child's translation.  Written as a right fold; equal to the
Go left-to-right accumulation by associativity of `++`. -/
def andLoop : List Expr → Except Err String
  | [] => .ok ""
  | subExp :: rest =>
    match translateOne subExp with
    | .error e => .error e
    | .ok sb =>
      match andLoop rest with
      | .error e => .error e
      | .ok s => .ok (sb ++ " AND " ++ s)

/-- The `case query.Or` inner loop: `s += sb + " OR "` for each child. -/
def orLoop : List Expr → Except Err String
  | [] => .ok ""
  | subExp :: rest =>
    match translateOne subExp with
    | .error e => .error e
    | .ok sb =>
      match orLoop rest with
      | .error e => .error e
      | .ok s => .ok (sb ++ " OR " ++ s)
end

/-- Embeds `translatePredicate` (query.go): the `for _, exp := range p` loop
accumulating `str`.  Written as a right fold over the expression list; equal
to the Go left-to-right accumulation by associativity of `++`.  Note that
sibling expressions of one predicate are concatenated with no separator,
exactly as in the source. -/
def translatePredicate : List Expr → Except Err String
  | [] => .ok ""
  | exp :: rest =>
    match translateOne exp with
    | .error e => .error e
    | .ok sExp =>
      match translatePredicate rest with
      | .error e => .error e
      | .ok sRest => .ok (sExp ++ sRest)

/-- Quick sanity example: a single equality on an integer. -/
example : translatePredicate [Expr.equal "age" (Value.vInt 5)] = .ok "age IS 5" := by decide

example : translatePredicate [Expr.and [Expr.equal "a" (Value.vInt 1), Expr.lowerThan "b" (Value.vInt 2)]]
    = .ok "(a IS 1 AND b < 2)" := by decide

example : translatePredicate [Expr.and []] = .error .slicePanic := by decide

example : translatePredicate [Expr.equal "name" (Value.vStr "al*x_y")]
    = .ok "name LIKE 'al%x\\_y' ESCAPE '\\'" := by decide

example : translatePredicate [Expr.inList "id" [Value.vStr "A", Value.vInt 3]]
    = .ok "id IN ('A',3)" := by decide

example : translatePredicate [Expr.inList "id" []] = .error .slicePanic := by decide

mutual
/-- The implicit precondition of `translatePredicate`: every `And`/`Or` group
has at least one child (recursively) and every `In`/`NotIn` value list is
nonempty.  Nothing in the source checks this; it is exactly the condition
under which the suffix-trimming slices stay in range. -/
def wellFormedExpr : Expr → Bool
  | .and ts => !ts.isEmpty && wellFormedList ts
  | .or ts => !ts.isEmpty && wellFormedList ts
  | .inList _ vs => !vs.isEmpty
  | .notIn _ vs => !vs.isEmpty
  | _ => true

/-- All expressions of a list are well formed. -/
def wellFormedList : List Expr → Bool
  | [] => true
  | e :: rest => wellFormedExpr e && wellFormedList rest
end

/-- Translate each child of a group independently, as the source does with
`translatePredicate(query.Predicate{subExp})`, collecting the results. -/
def translateChildren : List Expr → Except Err (List String)
  | [] => .ok []
  | c :: rest =>
    match translatePredicate [c] with
    | .error e => .error e
    | .ok s =>
      match translateChildren rest with
      | .error e => .error e
      | .ok ss => .ok (s :: ss)

/-- Join a list of strings with a separator (no trailing separator). -/
def sepJoin (sep : String) : List String → String
  | [] => ""
  | [x] => x
  | x :: rest => x ++ sep ++ sepJoin sep rest

/-- Join a list of strings where every element is followed by the separator
(the shape produced by the Go `s += sb + sep` loops). -/
def joinTrail (sep : String) : List String → String
  | [] => ""
  | x :: rest => x ++ sep ++ joinTrail sep rest

/-- The wildcard encoding of the spec, as a single pass over the characters
of the raw string value: `*` becomes the SQL `%`, `_` becomes the escaped
literal underscore `\_`, everything else is kept. -/
def wildcardEncode (s : String) : String :=
  ⟨s.data.flatMap (fun c => if c = '*' then ['%'] else if c = '_' then ['\\', '_'] else [c])⟩

/-- One sort key of `query.Query.Sort`. -/
structure SortField where
  name : String
  reversed : Bool
deriving DecidableEq

/-- Pagination window (`query.Window`): offset and limit. -/
structure Window where
  offset : Int
  limit : Int
deriving DecidableEq

/-- The abstract query: predicate tree, optional sort list (`none` models a
nil Go slice, distinguished from an empty one by `q.Sort != nil`), optional
window. -/
structure Query where
  predicate : List Expr
  sort : Option (List SortField)
  window : Option Window

/-- The loop of `getSort`: `str += name (+ " DESC") + ","` per sort key. -/
def sortLoop : List SortField → String
  | [] => ""
  | sortF :: rest =>
    (if sortF.reversed then sortF.name ++ " DESC" else sortF.name) ++ "," ++ sortLoop rest

/-- Embeds `getSort` (query.go): empty sort list falls back to `"id"`,
otherwise comma-join the keys and trim the trailing comma.  The slice is
guarded by the emptiness test, hence `.getD ""` never fires. -/
def getSort (q : Query) : String :=
  let l := q.sort.getD []
  if l.isEmpty then "id"
  else
    let str := sortLoop l
    (goSlice str ((str.length : Int) - 1)).getD ""

/-- Embeds `getQuery` (query.go). -/
def getQuery (q : Query) : Except Err String :=
  translatePredicate q.predicate

/-- Embeds `getSelect` (pgsql.go): `SELECT * FROM <table>`, then ` WHERE `
only when the translated predicate is nonempty, then ` ORDER BY ` when the
sort list is non-nil, then ` LIMIT <n> OFFSET <m>` when a window with a
non-negative limit is present, then `";"`. -/
def getSelect (tableName : String) (q : Query) : Except Err String :=
  match getQuery q with
  | .error e => .error e
  | .ok qry =>
    let str0 := "SELECT * FROM " ++ tableName
    let str1 := if qry != "" then str0 ++ " WHERE " ++ qry else str0
    let str2 :=
      match q.sort with
      | some _ => str1 ++ " ORDER BY " ++ getSort q
      | none => str1
    let str3 :=
      match q.window with
      | some w =>
        if w.limit ≥ 0 then str2 ++ " LIMIT " ++ toString w.limit ++ " OFFSET " ++ toString w.offset
        else str2
      | none => str2
    .ok (str3 ++ ";")

/-- Embeds `getDelete` (pgsql.go): `"DELETE FROM " + tableName + " WHERE "`
is built unconditionally, then the translated predicate and `";"` are
appended — there is no emptiness guard, unlike `getSelect`. -/
def getDelete (tableName : String) (q : Query) : Except Err String :=
  match getQuery q with
  | .error e => .error e
  | .ok qry => .ok ("DELETE FROM " ++ tableName ++ " WHERE " ++ qry ++ ";")

/-- A `resource.Item`: identifier, version tag, updated timestamp (carried as
its rendering) and the key/value payload (association list standing for the
Go map, in one fixed iteration order). -/
structure Item where
  id : Value
  etag : String
  updated : String
  payload : List (String × Value)
deriving DecidableEq

/-- The payload loop of `getInsert` (pgsql.go): accumulates the column-name
parts `k + ","` and the value parts `val + ","`, where `val` is replaced by
the quoted current server time for the `created` and `updated` keys.
Right fold; equal to the Go accumulation by associativity of `++`. -/
def insertLoop (now : String) : List (String × Value) → Except Err (String × String)
  | [] => .ok ("", "")
  | (k, v) :: rest =>
    match valueToString v with
    | .error _ => .error .errNotImplemented
    | .ok val0 =>
      let val := if k == "created" || k == "updated" then "'" ++ now ++ "'" else val0
      match insertLoop now rest with
      | .error e => .error e
      | .ok (ka, vz) => .ok (k ++ "," ++ ka, val ++ "," ++ vz)

/-- Embeds `getInsert` (pgsql.go): column list `(etag, <payload keys>)` (no
`id` filtering), value list starting with the quoted ETag; trailing commas
removed by `a[:len(a)-1]` / `z[:len(z)-1]`; result `a + " " + z + ";"`. -/
def getInsert (tableName now : String) (i : Item) : Except Err String :=
  match insertLoop now i.payload with
  | .error e => .error e
  | .ok (ka, vz) =>
    let a := "INSERT INTO " ++ tableName ++ "(etag," ++ ka
    let z := "VALUES(" ++ "'" ++ i.etag ++ "'" ++ "," ++ vz
    match goSlice a ((a.length : Int) - 1), goSlice z ((z.length : Int) - 1) with
    | some a1, some z1 => .ok (a1 ++ ")" ++ " " ++ z1 ++ ")" ++ ";")
    | _, _ => .error .slicePanic

/-- The payload loop of `getUpdate` (pgsql.go): skips the `id` key, replaces
the value by the quoted current server time for the `updated` key only, and
accumulates `k + "=" + val + ","`. -/
def updateLoop (now : String) : List (String × Value) → Except Err String
  | [] => .ok ""
  | (k, v) :: rest =>
    if k != "id" then
      match valueToString v with
      | .error _ => .error .errNotImplemented
      | .ok val0 =>
        let val := if k == "updated" then "'" ++ now ++ "'" else val0
        match updateLoop now rest with
        | .error e => .error e
        | .ok s => .ok (k ++ "=" ++ val ++ "," ++ s)
    else
      updateLoop now rest

/-- Embeds `getUpdate` (pgsql.go): `UPDATE <table> SET etag='<new etag>',`
plus the payload assignments with the trailing comma trimmed, then the
optimistic-concurrency guard `WHERE id=<id> AND etag='<old etag>';`. -/
def getUpdate (tableName now : String) (i o : Item) : Except Err String :=
  match valueToString o.id with
  | .error _ => .error .errNotImplemented
  | .ok idv =>
    let z := "WHERE id=" ++ idv ++ " AND etag=" ++ "'" ++ o.etag ++ "'" ++ ";"
    match updateLoop now i.payload with
    | .error e => .error e
    | .ok sets =>
      let a := "UPDATE " ++ tableName ++ " SET etag=" ++ "'" ++ i.etag ++ "'" ++ "," ++ sets
      match goSlice a ((a.length : Int) - 1) with
      | some a1 => .ok (a1 ++ " " ++ z)
      | none => .error .slicePanic

/-- Payload with the caller-supplied values at the `created` and `updated`
keys replaced by the server time (the sanitisation the spec claims for both
insert and update). -/
def stampInsertPayload (now : String) : List (String × Value) → List (String × Value)
  | [] => []
  | kv :: rest =>
    (kv.1, if kv.1 == "created" || kv.1 == "updated" then Value.vTime now else kv.2)
      :: stampInsertPayload now rest

/-- Payload with the caller-supplied value at the `updated` key only replaced
by the server time (what `getUpdate` actually enforces). -/
def stampUpdatePayload (now : String) : List (String × Value) → List (String × Value)
  | [] => []
  | kv :: rest =>
    (kv.1, if kv.1 == "updated" then Value.vTime now else kv.2) :: stampUpdatePayload now rest

/-- A `sqlItem` (part_002): the same data as `resource.Item`, with the
payload as stored by the handler. -/
structure SqlItem where
  id : Value
  etag : String
  updated : String
  payload : List (String × Value)
deriving DecidableEq

/-- Embeds `newSQLItem` (part_002): copies the item, filtering the `id` key
out of the payload ("so we don't store it at all"). -/
def newSQLItem (i : Item) : SqlItem :=
  { id := i.id, etag := i.etag, updated := i.updated,
    payload := i.payload.filter (fun kv => !(kv.1 == "id")) }

/-- The payload loop of `insertItems` (part_002): accumulates the column
parts `key + ", "` and the value parts `v + ", "`; a `valueToString` error is
returned unmapped there. -/
def insertColsLoop : List (String × Value) → Except Err (String × String)
  | [] => .ok ("", "")
  | (key, value) :: rest =>
    match valueToString value with
    | .error e => .error e
    | .ok v =>
      match insertColsLoop rest with
      | .error e => .error e
      | .ok (cs, rs) => .ok (key ++ ", " ++ cs, v ++ ", " ++ rs)

/-- Embeds the statement construction of `insertItems` (part_002):
`INSERT INTO <table>` plus the column buffer `(etag, k1, ...` and row buffer
`VALUES('<etag>', v1, ...`, each trimmed of its trailing `", "` by a
`[:len-2]` slice, closed with `)` and `) RETURNING id` and concatenated
without separator, exactly as the `bytes.Buffer` writes do. -/
def insertStatement (tableName : String) (i : SqlItem) : Except Err String :=
  match insertColsLoop i.payload with
  | .error e => .error e
  | .ok (cs, rs) =>
    let cString := "(etag, " ++ cs
    let rString := "VALUES(" ++ "'" ++ i.etag ++ "'" ++ ", " ++ rs
    match goSlice cString ((cString.length : Int) - 2),
          goSlice rString ((rString.length : Int) - 2) with
    | some c1, some r1 =>
      .ok ("INSERT INTO " ++ tableName ++ (c1 ++ ")") ++ (r1 ++ ") RETURNING id"))
    | _, _ => .error .slicePanic

/-- The column names written into the columns buffer of `insertItems`, in
order: the version-tag column `etag` first, then the `sqlItem` payload keys. -/
def insertColumnKeys (i : SqlItem) : List String :=
  "etag" :: i.payload.map Prod.fst

/-- The duplicate-key marker `insertItems` greps the error text for. -/
def dupKeyMarker : String :=
  "pq: duplicate key value violates unique constraint"

/-- Go `strings.Contains(s, sub)`. -/
def goContains (s sub : String) : Bool :=
  decide (sub.data <:+: s.data)

/-- The error handling of `insertItems` (part_002) around the per-item
`QueryRow(query).Scan(&ID)` call, with the database execution abstracted as
its result: on an error whose `fmt.Sprintln` rendering contains the
duplicate-key marker the transaction is rolled back and
`resource.ErrConflict` is returned; any other error is returned as is. -/
def insertItemsExec (execRes : Except String Int) : Option Err :=
  match execRes with
  | .ok _ => none
  | .error err =>
    let errorString := err ++ "\n"
    if goContains errorString dupKeyMarker then some .errConflict
    else some (.dbError err)

/-- The error handling of `Insert` (src/pgsql.go) around `h.session.Exec(s)`:
any execution error is rolled back and returned unmapped — no duplicate-key
classification at all. -/
def insertExecPgsql (execRes : Except String Int) : Option Err :=
  match execRes with
  | .ok _ => none
  | .error err => some (.dbError err)

/-- Embeds `compareEtags` (src/pgsql.go), with the database abstracted as a
partial map from rendered id to stored etag: a failed single-row scan yields
the raw driver error `sql.ErrNoRows`, returned unmapped; a present row with a
different etag yields `resource.ErrConflict`. -/
def compareEtags (store : String → Option String) (id origEtag : String) : Option Err :=
  match store id with
  | none => some .errNoRows
  | some etag => if etag != origEtag then some .errConflict else none

/-- Embeds `compareEtags` of the part_002 revision: the `QueryRow(...).Scan`
error is discarded, so on a missing row `etag` keeps its zero value `""` and
the comparison falls through to `resource.ErrConflict`. -/
def compareEtagsTx (store : String → Option String) (id origEtag : String) : Option Err :=
  let etag := (store id).getD ""
  if etag != origEtag then some .errConflict else none

/-- Embeds `Update` (src/pgsql.go) up to statement execution: the
`compareEtags` gate first (its error returned unmapped after rollback), then
the generated UPDATE statement.  Returns the statement that would be
executed. -/
def updateOp (store : String → Option String) (tableName now : String) (i o : Item) :
    Except Err String :=
  match compareEtags store (goFormatV o.id) o.etag with
  | some e => .error e
  | none => getUpdate tableName now i o

/-- Embeds `Delete` (src/pgsql.go) up to statement execution: the same
`compareEtags` gate, then the id-scoped DELETE statement. -/
def deleteOp (store : String → Option String) (tableName : String) (item : Item) :
    Except Err String :=
  match compareEtags store (goFormatV item.id) item.etag with
  | some e => .error e
  | none => .ok ("DELETE FROM " ++ tableName ++ " WHERE id = " ++ "'" ++ goFormatV item.id ++ "'")

/-- Look a column up in a raw result row (Go `row[k]`; `none` models the nil
interface value for a missing key). -/
def rowGet (row : List (String × Value)) (k : String) : Option Value :=
  (row.find? (fun kv => kv.1 == k)).map Prod.snd

/-- Embeds `newItem` (src/pgsql.go): reads `id` and `etag` from the row,
removes `etag` and `updated` from the payload map (the id is kept), and sets
`Updated` to the re-parsed current time.  The `etag.(string)` type assertion
panics when the column is missing or not a string; that is the `none` case. -/
def newItem (now : String) (row : List (String × Value)) : Option Item :=
  match rowGet row "etag" with
  | some (Value.vStr e) =>
    some { id := (rowGet row "id").getD (Value.vOther "<nil>"),
           etag := e, updated := now,
           payload := row.filter (fun kv => !(kv.1 == "etag") && !(kv.1 == "updated")) }
  | _ => none

/-- The row loop of `newItemList`: convert every raw row, failing if any
conversion fails. -/
def newItems (now : String) : List (List (String × Value)) → Option (List Item)
  | [] => some []
  | r :: rest =>
    match newItem now r with
    | none => none
    | some it =>
      match newItems now rest with
      | none => none
      | some its => some (it :: its)

/-- A `resource.ItemList`: offset, reported total, items. -/
structure ItemList where
  offset : Int
  total : Nat
  items : List Item
deriving DecidableEq

/-- Embeds `newItemList` (src/pgsql.go): `Total` is set to `len(rows)` — the
number of rows of this result set — and the items are the converted rows. -/
def newItemList (now : String) (rows : List (List (String × Value))) (offset : Int) :
    Option ItemList :=
  match newItems now rows with
  | none => none
  | some items => some { offset := offset, total := rows.length, items := items }

/-- Embeds the tail of `Find` (src/pgsql.go), with the database execution
abstracted as the list of rows the SELECT returned for this page: the offset
is taken from the window when one is set (otherwise 0) and the result is
`newItemList(raw, offset)`. -/
def findResult (now : String) (fetchedRows : List (List (String × Value)))
    (window : Option Window) : Option ItemList :=
  let offset : Int :=
    match window with
    | some w => w.offset
    | none => 0
  newItemList now fetchedRows offset

/-! Helper lemmas about the Go slice model and the string joins. -/

theorem goSlice_some (s : String) (n : Int) (h1 : 0 ≤ n) (h2 : n ≤ (s.length : Int)) :
    goSlice s n = some ⟨s.data.take n.toNat⟩ :=
  if_pos ⟨h1, h2⟩

theorem goSlice_trim (x suf : String) :
    goSlice (x ++ suf) (((x ++ suf).length : Int) - (suf.length : Int)) = some x := by
  have hlen : (x ++ suf).length = x.length + suf.length := String.length_append x suf
  rw [goSlice_some _ _ (by omega) (by omega)]
  congr 1
  apply String.ext
  show ((x ++ suf).data.take _) = x.data
  have ht : (((x ++ suf).length : Int) - (suf.length : Int)).toNat = x.data.length := by
    have : x.length = x.data.length := rfl
    omega
  rw [ht, String.data_append, List.take_left]

theorem goSlice_trimN (x suf : String) (n : Int) (h : (suf.length : Int) = n) :
    goSlice (x ++ suf) (((x ++ suf).length : Int) - n) = some x := by
  rw [← h]
  exact goSlice_trim x suf

theorem joinTrail_eq_sepJoin (sep : String) (ls : List String) (h : ls ≠ []) :
    joinTrail sep ls = sepJoin sep ls ++ sep := by
  induction ls with
  | nil => cases h rfl
  | cons x rest ih =>
    cases rest with
    | nil =>
      show x ++ sep ++ "" = x ++ sep
      rw [String.append_empty]
    | cons y t =>
      show x ++ sep ++ joinTrail sep (y :: t) = x ++ sep ++ sepJoin sep (y :: t) ++ sep
      rw [ih (by simp), String.append_assoc (x ++ sep)]

theorem translatePredicate_singleton (e : Expr) :
    translatePredicate [e] = translateOne e := by
  show (match translateOne e with
        | .error er => .error er
        | .ok sExp =>
          match translatePredicate [] with
          | .error er => .error er
          | .ok sRest => .ok (sExp ++ sRest)) = translateOne e
  cases translateOne e with
  | error er => rfl
  | ok s =>
    show Except.ok (s ++ "") = Except.ok s
    rw [String.append_empty]

theorem translateChildren_ne_nil (cs : List Expr) (ls : List String)
    (h : translateChildren cs = .ok ls) (hne : cs ≠ []) : ls ≠ [] := by
  cases cs with
  | nil => cases hne rfl
  | cons c rest =>
    simp only [translateChildren] at h
    cases h1 : translatePredicate [c] with
    | error er => rw [h1] at h; cases h
    | ok s =>
      rw [h1] at h
      cases h2 : translateChildren rest with
      | error er => rw [h2] at h; cases h
      | ok ss => rw [h2] at h; cases h; simp

theorem groupLoops_content (cs : List Expr) (ls : List String)
    (h : translateChildren cs = .ok ls) :
    andLoop cs = .ok (joinTrail " AND " ls) ∧ orLoop cs = .ok (joinTrail " OR " ls) := by
  induction cs generalizing ls with
  | nil =>
    simp only [translateChildren] at h
    cases h
    exact ⟨rfl, rfl⟩
  | cons c rest ih =>
    simp only [translateChildren] at h
    cases h1 : translatePredicate [c] with
    | error er => rw [h1] at h; cases h
    | ok s =>
      rw [h1] at h
      cases h2 : translateChildren rest with
      | error er => rw [h2] at h; cases h
      | ok ss =>
        rw [h2] at h
        cases h
        obtain ⟨ha, ho⟩ := ih ss h2
        rw [translatePredicate_singleton] at h1
        constructor
        · simp only [andLoop, h1, ha]
          rfl
        · simp only [orLoop, h1, ho]
          rfl

theorem group_translation (cs : List Expr) (ls : List String)
    (hne : cs ≠ []) (h : translateChildren cs = .ok ls) :
    translateOne (.and cs) = .ok ("(" ++ sepJoin " AND " ls ++ ")") ∧
    translateOne (.or cs) = .ok ("(" ++ sepJoin " OR " ls ++ ")") := by
  obtain ⟨ha, ho⟩ := groupLoops_content cs ls h
  have hls : ls ≠ [] := translateChildren_ne_nil cs ls h hne
  constructor
  · simp only [translateOne, ha, joinTrail_eq_sepJoin _ _ hls,
        goSlice_trimN (sepJoin " AND " ls) " AND " 5 (by decide)]
  · simp only [translateOne, ho, joinTrail_eq_sepJoin _ _ hls,
        goSlice_trimN (sepJoin " OR " ls) " OR " 4 (by decide)]

/-- C1: an AND (resp. OR) group with at least one child translates to the
translations of its children — each obtained by an independent recursive
`translatePredicate` call on the singleton predicate holding that child —
joined in order with `" AND "` (resp. `" OR "`) and wrapped in exactly one
pair of parentheses.  The children `cs` are arbitrary expressions, so this
covers groups at every nesting depth. -/
theorem claim1_and_or_groups (cs : List Expr) (ls : List String)
    (hne : cs ≠ []) (h : translateChildren cs = .ok ls) :
    translatePredicate [Expr.and cs] = .ok ("(" ++ sepJoin " AND " ls ++ ")") ∧
    translatePredicate [Expr.or cs] = .ok ("(" ++ sepJoin " OR " ls ++ ")") := by
  rw [translatePredicate_singleton, translatePredicate_singleton]
  exact group_translation cs ls hne h

/-- Witness for C1 at a two-child group, one child itself a nested group. -/
theorem claim1_witness :
    translatePredicate [Expr.and [Expr.greaterThan "a" (Value.vInt 1),
        Expr.or [Expr.lowerThan "b" (Value.vInt 2), Expr.equal "c" (Value.vBool true)]]]
      = .ok "(a > 1 AND (b < 2 OR c IS true))" ∧
    translatePredicate [Expr.or [Expr.greaterThan "a" (Value.vInt 1),
        Expr.or [Expr.lowerThan "b" (Value.vInt 2), Expr.equal "c" (Value.vBool true)]]]
      = .ok "(a > 1 OR (b < 2 OR c IS true))" := by
  have h := claim1_and_or_groups
    [Expr.greaterThan "a" (Value.vInt 1),
     Expr.or [Expr.lowerThan "b" (Value.vInt 2), Expr.equal "c" (Value.vBool true)]]
    ["a > 1", "(b < 2 OR c IS true)"] (by simp) (by decide)
  exact ⟨h.1.trans (by decide), h.2.trans (by decide)⟩

/-! Totality of the translator under the nonemptiness precondition (C9). -/

theorem valuesLoop_ok (vs : List Value) :
    ∃ s, valuesLoop vs = .ok s ∧ (vs = [] → s = "") ∧ (vs ≠ [] → 1 ≤ s.length) := by
  induction vs with
  | nil => exact ⟨"", rfl, fun _ => rfl, fun h => absurd rfl h⟩
  | cons v rest ih =>
    obtain ⟨s, hs, _, _⟩ := ih
    refine ⟨valueRender v ++ "," ++ s, ?_, ?_, ?_⟩
    · simp only [valuesLoop, valueToString, hs]
    · intro h; cases h
    · intro _
      have h1 : (valueRender v ++ "," ++ s).length = (valueRender v ++ ",").length + s.length :=
        String.length_append _ _
      have h2 : (valueRender v ++ ",").length = (valueRender v).length + 1 :=
        String.length_append _ _
      omega

theorem valuesToString_nil : valuesToString [] = .error .slicePanic := by decide

theorem valuesToString_ok (vs : List Value) (h : vs ≠ []) :
    ∃ s, valuesToString vs = .ok s := by
  obtain ⟨s, hs, _, hlen⟩ := valuesLoop_ok vs
  have h1 := hlen h
  refine ⟨⟨s.data.take ((s.length : Int) - 1).toNat⟩, ?_⟩
  simp only [valuesToString, hs, goSlice_some s ((s.length : Int) - 1) (by omega) (by omega)]

mutual
theorem translateOne_wf (e : Expr) :
    ((translateOne e).isOk = wellFormedExpr e) ∧
    (wellFormedExpr e = false → translateOne e = .error .slicePanic) := by
  cases e with
  | and ts =>
    obtain ⟨hok, herr⟩ := andLoop_wf ts
    cases hw : wellFormedList ts with
    | false =>
      have h1 := herr hw
      constructor
      · simp [Except.isOk, Except.toBool, translateOne, h1, wellFormedExpr, hw]
      · intro _; simp [translateOne, h1]
    | true =>
      obtain ⟨s, hs, hnil, hcons⟩ := hok hw
      cases ts with
      | nil => exact ⟨by decide, fun _ => by decide⟩
      | cons t0 trest =>
        have h5 : 5 ≤ s.length := hcons (by simp)
        have hg := goSlice_some s ((s.length : Int) - 5) (by omega) (by omega)
        constructor
        · simp [Except.isOk, Except.toBool, translateOne, hs, hg, wellFormedExpr, hw]
        · intro hfalse
          simp [wellFormedExpr, hw] at hfalse
  | or ts =>
    obtain ⟨hok, herr⟩ := orLoop_wf ts
    cases hw : wellFormedList ts with
    | false =>
      have h1 := herr hw
      constructor
      · simp [Except.isOk, Except.toBool, translateOne, h1, wellFormedExpr, hw]
      · intro _; simp [translateOne, h1]
    | true =>
      obtain ⟨s, hs, hnil, hcons⟩ := hok hw
      cases ts with
      | nil => exact ⟨by decide, fun _ => by decide⟩
      | cons t0 trest =>
        have h4 : 4 ≤ s.length := hcons (by simp)
        have hg := goSlice_some s ((s.length : Int) - 4) (by omega) (by omega)
        constructor
        · simp [Except.isOk, Except.toBool, translateOne, hs, hg, wellFormedExpr, hw]
        · intro hfalse
          simp [wellFormedExpr, hw] at hfalse
  | inList f vs =>
    cases vs with
    | nil =>
      constructor
      · simp [Except.isOk, Except.toBool, translateOne, valuesToString_nil, wellFormedExpr]
      · intro _; simp [translateOne, valuesToString_nil]
    | cons v0 vrest =>
      obtain ⟨s, hs⟩ := valuesToString_ok (v0 :: vrest) (by simp)
      constructor
      · simp [Except.isOk, Except.toBool, translateOne, hs, wellFormedExpr]
      · intro hfalse; simp [wellFormedExpr] at hfalse
  | notIn f vs =>
    cases vs with
    | nil =>
      constructor
      · simp [Except.isOk, Except.toBool, translateOne, valuesToString_nil, wellFormedExpr]
      · intro _; simp [translateOne, valuesToString_nil]
    | cons v0 vrest =>
      obtain ⟨s, hs⟩ := valuesToString_ok (v0 :: vrest) (by simp)
      constructor
      · simp [Except.isOk, Except.toBool, translateOne, hs, wellFormedExpr]
      · intro hfalse; simp [wellFormedExpr] at hfalse
  | equal f v =>
    refine ⟨?_, fun hfalse => by simp [wellFormedExpr] at hfalse⟩
    cases hv : isStringVal v <;> simp [Except.isOk, Except.toBool, translateOne, valueToString, wellFormedExpr, hv]
  | notEqual f v =>
    refine ⟨?_, fun hfalse => by simp [wellFormedExpr] at hfalse⟩
    cases hv : isStringVal v <;> simp [Except.isOk, Except.toBool, translateOne, valueToString, wellFormedExpr, hv]
  | greaterThan f v =>
    exact ⟨by simp [Except.isOk, Except.toBool, translateOne, valueToString, wellFormedExpr],
           fun hfalse => by simp [wellFormedExpr] at hfalse⟩
  | greaterOrEqual f v =>
    exact ⟨by simp [Except.isOk, Except.toBool, translateOne, valueToString, wellFormedExpr],
           fun hfalse => by simp [wellFormedExpr] at hfalse⟩
  | lowerThan f v =>
    exact ⟨by simp [Except.isOk, Except.toBool, translateOne, valueToString, wellFormedExpr],
           fun hfalse => by simp [wellFormedExpr] at hfalse⟩
  | lowerOrEqual f v =>
    exact ⟨by simp [Except.isOk, Except.toBool, translateOne, valueToString, wellFormedExpr],
           fun hfalse => by simp [wellFormedExpr] at hfalse⟩

theorem andLoop_wf (l : List Expr) :
    (wellFormedList l = true →
      ∃ s, andLoop l = .ok s ∧ (l = [] → s = "") ∧ (l ≠ [] → 5 ≤ s.length)) ∧
    (wellFormedList l = false → andLoop l = .error .slicePanic) := by
  cases l with
  | nil =>
    constructor
    · intro _; exact ⟨"", rfl, fun _ => rfl, fun h => absurd rfl h⟩
    · intro h; simp [wellFormedList] at h
  | cons e rest =>
    obtain ⟨he1, he2⟩ := translateOne_wf e
    obtain ⟨hr1, hr2⟩ := andLoop_wf rest
    constructor
    · intro hw
      simp only [wellFormedList, Bool.and_eq_true] at hw
      obtain ⟨hwe, hwr⟩ := hw
      obtain ⟨s, hs, _, _⟩ := hr1 hwr
      cases hone : translateOne e with
      | error er => rw [hone] at he1; rw [hwe] at he1; cases he1
      | ok se =>
        refine ⟨se ++ " AND " ++ s, ?_, fun hc => List.noConfusion hc, fun _ => ?_⟩
        · simp only [andLoop, hone, hs]
        · have h1 : (se ++ " AND " ++ s).length = (se ++ " AND ").length + s.length :=
            String.length_append _ _
          have h2 : (se ++ " AND ").length = se.length + 5 := String.length_append _ _
          omega
    · intro hw
      simp only [wellFormedList, Bool.and_eq_false_iff] at hw
      cases hw with
      | inl hwe =>
        have h1 := he2 hwe
        simp only [andLoop, h1]
      | inr hwr =>
        have h1 := hr2 hwr
        cases hone : translateOne e with
        | error er =>
          rw [hone] at he1
          have : wellFormedExpr e = false := by simpa using he1.symm
          have h2 := he2 this
          rw [hone] at h2
          cases h2
          simp only [andLoop, hone]
        | ok se => simp only [andLoop, hone, h1]

theorem orLoop_wf (l : List Expr) :
    (wellFormedList l = true →
      ∃ s, orLoop l = .ok s ∧ (l = [] → s = "") ∧ (l ≠ [] → 4 ≤ s.length)) ∧
    (wellFormedList l = false → orLoop l = .error .slicePanic) := by
  cases l with
  | nil =>
    constructor
    · intro _; exact ⟨"", rfl, fun _ => rfl, fun h => absurd rfl h⟩
    · intro h; simp [wellFormedList] at h
  | cons e rest =>
    obtain ⟨he1, he2⟩ := translateOne_wf e
    obtain ⟨hr1, hr2⟩ := orLoop_wf rest
    constructor
    · intro hw
      simp only [wellFormedList, Bool.and_eq_true] at hw
      obtain ⟨hwe, hwr⟩ := hw
      obtain ⟨s, hs, _, _⟩ := hr1 hwr
      cases hone : translateOne e with
      | error er => rw [hone] at he1; rw [hwe] at he1; cases he1
      | ok se =>
        refine ⟨se ++ " OR " ++ s, ?_, fun hc => List.noConfusion hc, fun _ => ?_⟩
        · simp only [orLoop, hone, hs]
        · have h1 : (se ++ " OR " ++ s).length = (se ++ " OR ").length + s.length :=
            String.length_append _ _
          have h2 : (se ++ " OR ").length = se.length + 4 := String.length_append _ _
          omega
    · intro hw
      simp only [wellFormedList, Bool.and_eq_false_iff] at hw
      cases hw with
      | inl hwe =>
        have h1 := he2 hwe
        simp only [orLoop, h1]
      | inr hwr =>
        have h1 := hr2 hwr
        cases hone : translateOne e with
        | error er =>
          rw [hone] at he1
          have : wellFormedExpr e = false := by simpa using he1.symm
          have h2 := he2 this
          rw [hone] at h2
          cases h2
          simp only [orLoop, hone]
        | ok se => simp only [orLoop, hone, h1]
end

theorem translatePredicate_wf (p : List Expr) :
    ((translatePredicate p).isOk = wellFormedList p) ∧
    (wellFormedList p = false → translatePredicate p = .error .slicePanic) := by
  induction p with
  | nil => exact ⟨rfl, fun h => by simp [wellFormedList] at h⟩
  | cons e rest ih =>
    obtain ⟨he1, he2⟩ := translateOne_wf e
    obtain ⟨ih1, ih2⟩ := ih
    constructor
    · cases hone : translateOne e with
      | error er =>
        rw [hone] at he1
        cases hrest : translatePredicate rest with
        | error er2 => simp only [translatePredicate, hone, wellFormedList, ← he1]; rfl
        | ok sr => simp only [translatePredicate, hone, wellFormedList, ← he1]; rfl
      | ok se =>
        rw [hone] at he1
        cases hrest : translatePredicate rest with
        | error er2 =>
          rw [hrest] at ih1
          simp only [translatePredicate, hone, hrest, wellFormedList, ← he1, ← ih1]
          rfl
        | ok sr =>
          rw [hrest] at ih1
          simp only [translatePredicate, hone, hrest, wellFormedList, ← he1, ← ih1]
          rfl
    · intro hw
      simp only [wellFormedList, Bool.and_eq_false_iff] at hw
      cases hw with
      | inl hwe =>
        have h1 := he2 hwe
        simp only [translatePredicate, h1]
      | inr hwr =>
        have h1 := ih2 hwr
        cases hone : translateOne e with
        | error er =>
          rw [hone] at he1
          have : wellFormedExpr e = false := by simpa using he1.symm
          have h2 := he2 this
          rw [hone] at h2
          cases h2
          simp only [translatePredicate, hone]
        | ok se => simp only [translatePredicate, hone, h1]

/-- C9: predicate translation returns a string exactly for the trees whose
AND/OR groups all have at least one child and whose IN/NOT IN value lists are
all nonempty (`wellFormedList`); on any tree violating this precondition the
suffix-trimming slices `s[:len(s)-5]`, `s[:len(s)-4]`, `str[:len(str)-1]`
index below zero and the translation aborts with the slice panic. -/
theorem claim9_translation_total (p : List Expr) :
    ((translatePredicate p).isOk = wellFormedList p) ∧
    (wellFormedList p = false → translatePredicate p = .error .slicePanic) :=
  translatePredicate_wf p

/-- Witness for C9 at an empty AND group and at a well-formed tree. -/
theorem claim9_witness :
    translatePredicate [Expr.and []] = .error .slicePanic ∧
    (translatePredicate [Expr.inList "id" [Value.vInt 1]]).isOk = true :=
  ⟨(claim9_translation_total [Expr.and []]).2 (by decide),
   ((claim9_translation_total [Expr.inList "id" [Value.vInt 1]]).1).trans (by decide)⟩

/-! Wildcard translation of string comparisons (C3). -/

theorem flatMap_map_wildcard (l : List Char) :
    (l.map (fun c => if c = '*' then '%' else c)).flatMap
        (fun c => if c = '_' then ['\\', '_'] else [c])
      = l.flatMap (fun c => if c = '*' then ['%'] else if c = '_' then ['\\', '_'] else [c]) := by
  induction l with
  | nil => rfl
  | cons c rest ih =>
    simp only [List.map_cons, List.flatMap_cons, ih]
    congr 1
    by_cases h1 : c = '*'
    · subst h1; rfl
    · by_cases h2 : c = '_'
      · subst h2; rfl
      · simp [h1, h2]

theorem likeLiteral (s : String) :
    replaceUnderscore (replaceStar ("'" ++ s ++ "'")) = "'" ++ wildcardEncode s ++ "'" := by
  apply String.ext
  show ((("'" ++ s ++ "'").data.map (fun c => if c = '*' then '%' else c)).flatMap
      (fun c => if c = '_' then ['\\', '_'] else [c]))
    = ("'" ++ wildcardEncode s ++ "'").data
  rw [flatMap_map_wildcard]
  rw [show ("'" ++ s ++ "'").data = '\'' :: (s.data ++ ['\'']) from by
        rw [String.data_append, String.data_append]; rfl]
  rw [show ("'" ++ wildcardEncode s ++ "'").data
        = '\'' :: ((s.data.flatMap
            (fun c => if c = '*' then ['%'] else if c = '_' then ['\\', '_'] else [c])) ++ ['\'']) from by
        rw [String.data_append, String.data_append]; rfl]
  simp

/-- C3: equality (resp. not-equal) on a string value translates to
`<field> LIKE <literal> ESCAPE '\'` (resp. `NOT LIKE`), where the encoded
literal is the single-quoted value with every `*` replaced by `%` and every
`_` by the escaped underscore `\_`; equality (resp. not-equal) on a
non-string value translates to `<field> IS <literal>` (resp. `IS NOT`). -/
theorem claim3_equality_translation (f g s : String) (v : Value)
    (hv : isStringVal v = false) :
    translatePredicate [Expr.equal f (Value.vStr s)]
      = .ok (f ++ " LIKE " ++ ("'" ++ wildcardEncode s ++ "'") ++ " ESCAPE '\\'") ∧
    translatePredicate [Expr.notEqual f (Value.vStr s)]
      = .ok (f ++ " NOT LIKE " ++ ("'" ++ wildcardEncode s ++ "'") ++ " ESCAPE '\\'") ∧
    translatePredicate [Expr.equal g v] = .ok (g ++ " IS " ++ valueRender v) ∧
    translatePredicate [Expr.notEqual g v] = .ok (g ++ " IS NOT " ++ valueRender v) := by
  rw [translatePredicate_singleton, translatePredicate_singleton,
      translatePredicate_singleton, translatePredicate_singleton]
  refine ⟨?_, ?_, ?_, ?_⟩
  · rw [show translateOne (Expr.equal f (Value.vStr s))
          = Except.ok (f ++ " LIKE "
              ++ replaceUnderscore (replaceStar ("'" ++ s ++ "'")) ++ " ESCAPE '\\'") from rfl,
        likeLiteral]
  · rw [show translateOne (Expr.notEqual f (Value.vStr s))
          = Except.ok (f ++ " NOT LIKE "
              ++ replaceUnderscore (replaceStar ("'" ++ s ++ "'")) ++ " ESCAPE '\\'") from rfl,
        likeLiteral]
  · simp only [translateOne, valueToString, hv, Bool.false_eq_true, if_false]
  · simp only [translateOne, valueToString, hv, Bool.false_eq_true, if_false]

/-- Witness for C3: a string value with both wildcard characters, and an
integer (non-string) value. -/
theorem claim3_witness :
    translatePredicate [Expr.equal "name" (Value.vStr "al*x_y")]
      = .ok "name LIKE 'al%x\\_y' ESCAPE '\\'" ∧
    translatePredicate [Expr.notEqual "name" (Value.vStr "al*x_y")]
      = .ok "name NOT LIKE 'al%x\\_y' ESCAPE '\\'" ∧
    translatePredicate [Expr.equal "age" (Value.vInt 7)] = .ok "age IS 7" ∧
    translatePredicate [Expr.notEqual "age" (Value.vInt 7)] = .ok "age IS NOT 7" := by
  have h := claim3_equality_translation "name" "age" "al*x_y" (Value.vInt 7) (by decide)
  exact ⟨h.1.trans (by decide), h.2.1.trans (by decide),
         h.2.2.1.trans (by decide), h.2.2.2.trans (by decide)⟩

/-! The WHERE clause on an empty predicate (C2). -/

/-- C2 (code evaluation): the empty predicate translates to the empty
string; `getSelect` then omits the WHERE clause entirely, but `getDelete`
unconditionally emits the `WHERE` keyword, producing
`DELETE FROM <table> WHERE ;` — the keyword followed by nothing. -/
theorem claim2_where_clause :
    (translatePredicate ([] : List Expr) = .ok "") ∧
    (∀ t : String,
        getSelect t { predicate := [], sort := none, window := none }
          = .ok ("SELECT * FROM " ++ t ++ ";")) ∧
    (getDelete "users" { predicate := [], sort := none, window := none }
        = .ok "DELETE FROM users WHERE ;") := by
  refine ⟨rfl, fun t => rfl, by decide⟩

/-! The value encoder on unsupported types (C4). -/

/-- C4 (code evaluation): `valueToString` silently encodes a value of an
unsupported runtime type (here a Go slice `[]int{1, 2}`, whose `%v`
rendering is `[1 2]`) as a quoted literal with a nil error — the commented
out `default` branch would have failed — so statement construction neither
aborts nor reports `ErrNotImplemented`, and the value reaches the SQL
text of INSERT statements and predicates. -/
theorem claim4_silent_encoding :
    valueToString (Value.vOther "[1 2]") = .ok "'[1 2]'" ∧
    getInsert "posts" "NOW"
        { id := Value.vStr "x", etag := "e", updated := "",
          payload := [("tags", Value.vOther "[1 2]")] }
      = .ok "INSERT INTO posts(etag,tags) VALUES('e','[1 2]');" ∧
    translatePredicate [Expr.equal "tags" (Value.vOther "[1 2]")]
      = .ok "tags IS '[1 2]'" := by
  refine ⟨by decide, by decide, by decide⟩


/-! Server-side timestamping of created/updated (C5). -/

theorem insertLoop_stamp (now : String) (p : List (String × Value)) :
    insertLoop now (stampInsertPayload now p) = insertLoop now p := by
  induction p with
  | nil => rfl
  | cons kv rest ih =>
    obtain ⟨k, v⟩ := kv
    by_cases h : k = "created" ∨ k = "updated"
    · rcases h with h | h <;> subst h <;>
        simp [stampInsertPayload, insertLoop, valueToString, ih]
    · push_neg at h
      obtain ⟨h1, h2⟩ := h
      simp [stampInsertPayload, insertLoop, valueToString, ih, h1, h2]

theorem updateLoop_stamp (now : String) (p : List (String × Value)) :
    updateLoop now (stampUpdatePayload now p) = updateLoop now p := by
  induction p with
  | nil => rfl
  | cons kv rest ih =>
    obtain ⟨k, v⟩ := kv
    by_cases h : k = "updated"
    · subst h
      simp [stampUpdatePayload, updateLoop, valueToString, ih]
    · simp [stampUpdatePayload, updateLoop, valueToString, ih, h]

/-- C5 (amended): on insert, both the `created` and `updated` payload values
are replaced by the current server time, so the generated INSERT statement is
unchanged when the caller-supplied values at those keys are replaced by the
server time; on update this holds for the `updated` key only. -/
theorem claim5_amended_timestamps :
    (∀ (tableName now : String) (i : Item),
        getInsert tableName now { i with payload := stampInsertPayload now i.payload }
          = getInsert tableName now i) ∧
    (∀ (tableName now : String) (i o : Item),
        getUpdate tableName now { i with payload := stampUpdatePayload now i.payload } o
          = getUpdate tableName now i o) := by
  constructor
  · intro tableName now i
    simp [getInsert, insertLoop_stamp]
  · intro tableName now i o
    simp [getUpdate, updateLoop_stamp]

/-- Counterexample to C5 as stated: on update, a caller-supplied `created`
value is serialized as is.  With server time `2020-01-01T00:00:00Z`, the
fabricated timestamp `1999-01-01` reaches the SET clause verbatim, and the
generated statement differs from the one for a payload carrying the server
time — so the serialized value does depend on the caller-supplied `created`
value. -/
theorem claim5_counterexample :
    getUpdate "t" "2020-01-01T00:00:00Z"
        { id := Value.vStr "x", etag := "e2", updated := "",
          payload := [("created", Value.vStr "1999-01-01")] }
        { id := Value.vStr "x", etag := "e1", updated := "", payload := [] }
      = .ok "UPDATE t SET etag='e2',created='1999-01-01' WHERE id='x' AND etag='e1';" ∧
    getUpdate "t" "2020-01-01T00:00:00Z"
        { id := Value.vStr "x", etag := "e2", updated := "",
          payload := [("created", Value.vStr "1999-01-01")] }
        { id := Value.vStr "x", etag := "e1", updated := "", payload := [] }
      ≠ getUpdate "t" "2020-01-01T00:00:00Z"
        { id := Value.vStr "x", etag := "e2", updated := "",
          payload := [("created", Value.vTime "2020-01-01T00:00:00Z")] }
        { id := Value.vStr "x", etag := "e1", updated := "", payload := [] } := by
  refine ⟨by decide, by decide⟩


/-! The identifier in the INSERT column list (C6). -/

/-- Counterexample to C6 as stated: `getInsert` (src/pgsql.go) iterates over
the whole payload with no `id` filter, so a payload `id` key lands in the
column list of the generated INSERT statement. -/
theorem claim6_counterexample :
    getInsert "posts" "NOW"
        { id := Value.vStr "42", etag := "e", updated := "",
          payload := [("id", Value.vStr "42")] }
      = .ok "INSERT INTO posts(etag,id) VALUES('e','42');" := by
  decide

/-- C6 (amended): only the `sqlItem`-based insert path excludes the
identifier: `newSQLItem` filters `id` out of the payload, so the column keys
of the statement built by `insertItems` — the version-tag column plus the
`sqlItem` payload keys — never contain `id`, and a payload `id` key is
dropped from the emitted statement; `getInsert` performs no such filtering
(see the counterexample). -/
theorem claim6_amended_id_excluded :
    (∀ i : Item, "id" ∉ insertColumnKeys (newSQLItem i)) ∧
    insertStatement "posts"
        (newSQLItem { id := Value.vStr "42", etag := "e", updated := "",
                      payload := [("id", Value.vStr "42"), ("name", Value.vStr "bob")] })
      = .ok "INSERT INTO posts(etag, name)VALUES('e', 'bob') RETURNING id" := by
  constructor
  · intro i hmem
    rcases List.mem_cons.mp hmem with h | h
    · exact absurd h (by decide)
    · rcases List.mem_map.mp h with ⟨kv, hkv, hfst⟩
      have := List.mem_filter.mp hkv
      rw [hfst] at this
      simp at this
  · decide

/-! NotFound versus Conflict on a missing row (C7). -/

/-- C7 (code evaluation): when the given identifier matches no stored row,
`compareEtags` (src/pgsql.go) returns the raw driver error `sql.ErrNoRows`
unmapped — not `resource.ErrNotFound` as both the claim and the function's
own comment state — and `Update`/`Delete` propagate it; the part_002
revision of `compareEtags` even discards the scan error and reports
`resource.ErrConflict`. -/
theorem claim7_missing_row (store : String → Option String) (id origEtag : String)
    (h : store id = none) :
    compareEtags store id origEtag = some Err.errNoRows ∧
    Err.errNoRows ≠ Err.errNotFound ∧
    (origEtag ≠ "" → compareEtagsTx store id origEtag = some Err.errConflict) ∧
    (∀ (tableName now : String) (i o : Item), goFormatV o.id = id → o.etag = origEtag →
        updateOp store tableName now i o = .error Err.errNoRows) ∧
    (∀ (tableName : String) (item : Item), goFormatV item.id = id → item.etag = origEtag →
        deleteOp store tableName item = .error Err.errNoRows) := by
  refine ⟨?_, by decide, ?_, ?_, ?_⟩
  · simp [compareEtags, h]
  · intro hne
    simp [compareEtagsTx, h, bne_iff_ne, Ne.symm hne]
  · intro tableName now i o hid hetag
    simp [updateOp, compareEtags, hid, h]
  · intro tableName item hid hetag
    simp [deleteOp, compareEtags, hid, h]

/-- Witness for C7 on an empty store. -/
theorem claim7_witness :
    compareEtags (fun _ => none) "u1" "e1" = some Err.errNoRows ∧
    compareEtagsTx (fun _ => none) "u1" "e1" = some Err.errConflict ∧
    updateOp (fun _ => none) "users" "NOW"
        { id := Value.vStr "u1", etag := "e2", updated := "", payload := [] }
        { id := Value.vStr "u1", etag := "e1", updated := "", payload := [] }
      = .error Err.errNoRows ∧
    deleteOp (fun _ => none) "users"
        { id := Value.vStr "u1", etag := "e1", updated := "", payload := [] }
      = .error Err.errNoRows := by
  have h := claim7_missing_row (fun _ => none) "u1" "e1" rfl
  exact ⟨h.1, h.2.2.1 (by decide),
         h.2.2.2.1 "users" "NOW" _ _ rfl rfl,
         h.2.2.2.2 "users" _ rfl rfl⟩

/-! Duplicate-key mapping on insert (C8). -/

/-- C8 (code evaluation): in the part_002 revision, `insertItems` maps any
execution error whose text contains the duplicate-key marker to
`resource.ErrConflict`; but `Insert` of src/pgsql.go returns the raw
database error unmapped, although its own doc comment promises
`resource.ErrConflict` on duplicates. -/
theorem claim8_duplicate_key (msg : String)
    (hdup : goContains (msg ++ "\n") dupKeyMarker = true) :
    insertItemsExec (Except.error msg) = some Err.errConflict ∧
    insertExecPgsql (Except.error msg) = some (Err.dbError msg) ∧
    some (Err.dbError msg) ≠ some Err.errConflict := by
  refine ⟨?_, rfl, by simp⟩
  simp [insertItemsExec, hdup]

/-- Witness for C8 at the error message pq reports on a primary-key
violation. -/
theorem claim8_witness :
    insertItemsExec
        (Except.error "pq: duplicate key value violates unique constraint \"users_pkey\"")
      = some Err.errConflict ∧
    insertExecPgsql
        (Except.error "pq: duplicate key value violates unique constraint \"users_pkey\"")
      = some (Err.dbError "pq: duplicate key value violates unique constraint \"users_pkey\"") :=
  ⟨(claim8_duplicate_key
      "pq: duplicate key value violates unique constraint \"users_pkey\"" (by decide)).1,
   (claim8_duplicate_key
      "pq: duplicate key value violates unique constraint \"users_pkey\"" (by decide)).2.1⟩

/-! The reported total of Find (C10). -/

theorem newItems_length (now : String) (rows : List (List (String × Value)))
    (items : List Item) (h : newItems now rows = some items) :
    items.length = rows.length := by
  induction rows generalizing items with
  | nil => cases h; rfl
  | cons r rest ih =>
    simp only [newItems] at h
    cases h1 : newItem now r with
    | none => rw [h1] at h; cases h
    | some it =>
      rw [h1] at h
      cases h2 : newItems now rest with
      | none => rw [h2] at h; cases h
      | some its =>
        rw [h2] at h
        cases h
        simp [ih its h2]

/-- C10: a successful `Find` reports `Total` equal to the number of items in
the returned list, which is the number of rows fetched for this page — never
a count of all rows matching the predicate. -/
theorem claim10_total_is_page_size (now : String) (rows : List (List (String × Value)))
    (w : Option Window) (l : ItemList) (h : findResult now rows w = some l) :
    l.total = l.items.length ∧ l.total = rows.length := by
  simp only [findResult, newItemList] at h
  cases h1 : newItems now rows with
  | none => rw [h1] at h; cases h
  | some items =>
    rw [h1] at h
    cases h
    exact ⟨(newItems_length now rows items h1).symm, rfl⟩

/-- Witness for C10: one fetched row with a window at offset 10. -/
theorem claim10_witness :
    (({ offset := 10, total := 1,
        items := [{ id := Value.vStr "a", etag := "e", updated := "N",
                    payload := [("id", Value.vStr "a")] }] } : ItemList).total
      = [({ id := Value.vStr "a", etag := "e", updated := "N",
            payload := [("id", Value.vStr "a")] } : Item)].length) ∧
    (({ offset := 10, total := 1,
        items := [{ id := Value.vStr "a", etag := "e", updated := "N",
                    payload := [("id", Value.vStr "a")] }] } : ItemList).total
      = [[("id", Value.vStr "a"), ("etag", Value.vStr "e")]].length) :=
  claim10_total_is_page_size "N" [[("id", Value.vStr "a"), ("etag", Value.vStr "e")]]
    (some { offset := 10, limit := 5 }) _ (by decide)


end PgSql
